import Mathlib

/-!
Verification of the SDAM / CMAP / server-selection core of the
`mongo-rust-driver` repository against its natural-language specification.

The repository excerpt ships only the crate roots, the integration tests
(`tests/spec/connection_stepdown.rs`) and one helper
(`write_concern_to_document`); the bodies of the connection pool, the
topology state machine, the server selector and the operation executor are
not part of the excerpt.  Following the spec (its sections are cited at
each definition), those components are modelled here as executable Lean
functions and the spec's testable properties are proved about them.
-/

namespace MongoDriver

/-- Modelled from the spec: §3 "Connection" — the pool's connection record.
Attributes per the spec: identifier, generation number (copied from the
pool at time of creation), created-at and last-used-at timestamps.  The
underlying transport handle is out of scope (§1). -/
structure Connection where
  id : Nat
  generation : Nat
  createdAt : Nat
  lastUsedAt : Nat
deriving DecidableEq, Repr

/-- Modelled from the spec: §3 "Connection Pool" — configuration bounds
(min size, max size, max idle time; the wait-queue timeout only governs
blocking, which is abstracted away). -/
structure PoolConfig where
  minSize : Nat
  maxSize : Nat
  maxIdleTime : Nat
deriving DecidableEq, Repr

/-- Modelled from the spec: §3 "Connection Pool" — generation counter
(monotonic, incremented whenever the pool is cleared), set of available
connections, connections currently checked out, and configuration bounds.
`nextId` generates fresh connection identifiers. -/
structure Pool where
  config : PoolConfig
  generation : Nat
  available : List Connection
  checkedOut : List Connection
  nextId : Nat
deriving DecidableEq, Repr

/-- Total live connections: available plus checked out (§3). -/
def Pool.total (p : Pool) : Nat :=
  p.available.length + p.checkedOut.length

/-- The empty pool a node starts with. -/
def initPool (cfg : PoolConfig) : Pool :=
  { config := cfg, generation := 0, available := [], checkedOut := [], nextId := 0 }

/-- Modelled from the spec: §4.3 `checkout(timeout)` — prefers an available
connection whose generation matches current (stale available connections
are discarded on the way, per §4.3 `clear`: they were "marked for
disposal"); otherwise creates a new one if under max size; otherwise the
caller would block on the wait queue, which this sequential model reports
as `none`. -/
def checkout (now : Nat) (p : Pool) : Option (Connection × Pool) :=
  match p.available.filter (fun c => c.generation == p.generation) with
  | c :: rest =>
      let c' := { c with lastUsedAt := now }
      some (c', { p with available := rest, checkedOut := c' :: p.checkedOut })
  | [] =>
      if p.checkedOut.length < p.config.maxSize then
        let c : Connection :=
          { id := p.nextId, generation := p.generation, createdAt := now, lastUsedAt := now }
        some (c, { p with available := [], checkedOut := c :: p.checkedOut,
                          nextId := p.nextId + 1 })
      else none

/-- Modelled from the spec: §4.3 `checkin(connection)` — returns the
`i`-th checked-out connection to the available set unless its generation is
stale or it is flagged unusable, in which case it is closed and discarded.
Only connections currently checked out can be returned, which the index
into `checkedOut` enforces. -/
def checkin (now i : Nat) (usable : Bool) (p : Pool) : Pool :=
  match p.checkedOut[i]? with
  | none => p
  | some c =>
      let rest := p.checkedOut.eraseIdx i
      if usable && (c.generation == p.generation) then
        { p with checkedOut := rest,
                 available := { c with lastUsedAt := now } :: p.available }
      else
        { p with checkedOut := rest }

/-- Modelled from the spec: §4.3 `clear()` — increments the generation
counter; currently-available connections keep their (now old) generation,
which marks them for disposal, and in-flight checked-out connections are
discarded on checkin via the same generation comparison. -/
def clearPool (p : Pool) : Pool :=
  { p with generation := p.generation + 1 }

/-- Modelled from the spec: §4.3 "Background maintenance removes idle
connections older than the configured max idle time and tops the pool up
to its minimum size" (never creating past max size). -/
def addFresh (now : Nat) : Nat → Pool → Pool
  | 0, p => p
  | n + 1, p =>
      let c : Connection :=
        { id := p.nextId, generation := p.generation, createdAt := now, lastUsedAt := now }
      addFresh now n { p with available := c :: p.available, nextId := p.nextId + 1 }

def maintain (now : Nat) (p : Pool) : Pool :=
  let kept := p.available.filter (fun c => now - c.lastUsedAt ≤ p.config.maxIdleTime)
  let p' := { p with available := kept }
  addFresh now (min p.config.minSize p.config.maxSize - p'.total) p'

/-- The operations an application and the background task can perform on a
pool (§4.3); `checkout` that would block leaves the state unchanged. -/
inductive PoolOp
  | checkout (now : Nat)
  | checkin (now i : Nat) (usable : Bool)
  | clear
  | maintain (now : Nat)
deriving DecidableEq, Repr

def applyPoolOp (p : Pool) : PoolOp → Pool
  | .checkout now =>
      match checkout now p with
      | some (_, p') => p'
      | none => p
  | .checkin now i usable => checkin now i usable p
  | .clear => clearPool p
  | .maintain now => maintain now p

/-- The pool state reached from an empty pool by a sequence of operations. -/
def runPool (cfg : PoolConfig) (ops : List PoolOp) : Pool :=
  ops.foldl applyPoolOp (initPool cfg)

/-! ### Topology data model (§3) -/

/-- Modelled from the spec: §3 "Server Description" — server type enum. -/
inductive ServerType
  | Unknown
  | Standalone
  | Mongos
  | RSPrimary
  | RSSecondary
  | RSArbiter
  | RSOther
  | RSGhost
deriving DecidableEq, Repr

/-- Modelled from the spec: §3 "Server Description" — immutable snapshot of
one node's last known state: address, server type, round-trip time
estimate, replica-set name, tags, election id, and (for a primary) the
replica-set host list reported by the node.  `electionId = 0` stands for
"none seen". -/
structure ServerDescription where
  address : String
  stype : ServerType
  roundTrip : Nat
  setName : Option String
  tags : List (String × String)
  electionId : Nat
  hosts : List String
deriving DecidableEq, Repr

/-- The description a node gets when it is first referenced or demoted:
type Unknown, nothing else known (§3 lifecycle). -/
def unknownDesc (addr : String) : ServerDescription :=
  { address := addr, stype := .Unknown, roundTrip := 0, setName := none,
    tags := [], electionId := 0, hosts := [] }

/-- Modelled from the spec: §3 "Topology Description" — topology type enum. -/
inductive TopologyType
  | Single
  | ReplicaSetNoPrimary
  | ReplicaSetWithPrimary
  | Sharded
  | Unknown
deriving DecidableEq, Repr

/-- Modelled from the spec: §3 "Topology Description" — topology type, the
address → Server Description mapping (an association list), the replica-set
name once known, and the maximum election id seen (to reject stale
primaries). -/
structure Topology where
  ttype : TopologyType
  servers : List (String × ServerDescription)
  setName : Option String
  maxElectionId : Nat
deriving DecidableEq, Repr

/-- Initial topology state (§4.1): type Unknown, no members. -/
def initTopology : Topology :=
  { ttype := .Unknown, servers := [], setName := none, maxElectionId := 0 }

/-! Association-list primitives for the address → description mapping. -/

def lookupServer : List (String × ServerDescription) → String → Option ServerDescription
  | [], _ => none
  | (k, v) :: rest, a => if k = a then some v else lookupServer rest a

def containsAddr (l : List (String × ServerDescription)) (a : String) : Bool :=
  (lookupServer l a).isSome

/-- Replace the entry at an address, or append it if absent. -/
def setServer : List (String × ServerDescription) → String → ServerDescription →
    List (String × ServerDescription)
  | [], a, d => [(a, d)]
  | (k, v) :: rest, a, d =>
      if k = a then (a, d) :: rest else (k, v) :: setServer rest a d

def isPrimaryEntry (p : String × ServerDescription) : Bool :=
  p.2.stype == ServerType.RSPrimary

def hasPrimary (l : List (String × ServerDescription)) : Bool :=
  l.any isPrimaryEntry

def countPrimaries (l : List (String × ServerDescription)) : Nat :=
  l.countP isPrimaryEntry

/-! ### Topology State Machine (§4.1) -/

/-- Modelled from the spec: §4.1 — a monitor's outcome: a fresh Server
Description or a classified error. -/
inductive HealthResult
  | ok (sd : ServerDescription)
  | err
deriving DecidableEq, Repr

/-- Recompute replica-set topology type from the member map, used while the
topology is (or is becoming) a replica set: ReplicaSetWithPrimary exactly
when some member is RSPrimary (§4.1). -/
def rsType (l : List (String × ServerDescription)) : TopologyType :=
  if hasPrimary l then .ReplicaSetWithPrimary else .ReplicaSetNoPrimary

/-- Modelled from the spec: §4.1 — mark a node Unknown immediately (the
fast-invalidation path for application-traffic errors, also used when a
monitor reports a failed health check).  If the primary becomes Unknown the
type becomes ReplicaSetNoPrimary (§4.1 rule 3). -/
def markUnknown (T : Topology) (addr : String) : Topology :=
  let m := setServer T.servers addr (unknownDesc addr)
  { T with servers := m,
           ttype := if T.ttype = .ReplicaSetWithPrimary && !hasPrimary m
                    then .ReplicaSetNoPrimary else T.ttype }

/-- Demote another member claiming RSPrimary with a lower/equal election
context to Unknown (§4.1 rule 2, §3 invariant); the reporting address
itself is left alone. -/
def demoteEntry (addr : String) (eid : Nat) (p : String × ServerDescription) :
    String × ServerDescription :=
  if p.1 ≠ addr && isPrimaryEntry p && p.2.electionId ≤ eid
  then (p.1, unknownDesc p.1) else p

/-- Add Unknown entries (with fresh Monitor+Pool pairs, abstracted away)
for newly discovered replica-set members from a primary's host list
(§4.1 rule 5). -/
def addNewHosts (l : List (String × ServerDescription)) :
    List String → List (String × ServerDescription)
  | [] => l
  | h :: rest =>
      if containsAddr l h then addNewHosts l rest
      else addNewHosts (l ++ [(h, unknownDesc h)]) rest

/-- Modelled from the spec: §4.1 `apply_update(address, health_result)` —
consumes a monitor's outcome and recomputes the topology:
* a classified error, or a description of type Unknown, marks the node
  Unknown (rule 3 / fast path);
* Standalone: if no other topology exists the type becomes Single (rule 1);
* Mongos: type becomes Sharded (rule 4);
* RSPrimary: a stale primary (election id below the maximum seen) is
  rejected and the topology is unchanged (§3, Scenario 1); otherwise
  members removed from the primary's host list are torn down, every other
  member claiming RSPrimary with a lower/equal election context is demoted
  to Unknown *before* the new primary is accepted, newly discovered members
  are added, and the type becomes ReplicaSetWithPrimary (rule 2, rule 5);
* RSSecondary/RSArbiter/RSOther: the member is updated and the type
  becomes ReplicaSetWithPrimary or ReplicaSetNoPrimary according to
  whether a primary is present (rules 2-3), unless the topology already
  is Single or Sharded;
* RSGhost: the member entry is updated, the type is unchanged.
The replica-set name is recorded once known (§3). -/
def applyUpdate (T : Topology) (addr : String) (r : HealthResult) : Topology :=
  match r with
  | .err => markUnknown T addr
  | .ok sd =>
    match sd.stype with
    | .Unknown => markUnknown T addr
    | .Standalone =>
        if T.ttype = .Unknown then
          { T with ttype := .Single, servers := setServer T.servers addr sd }
        else { T with servers := setServer T.servers addr sd }
    | .Mongos =>
        { T with ttype := .Sharded, servers := setServer T.servers addr sd }
    | .RSPrimary =>
        if sd.electionId < T.maxElectionId then T
        else
          let kept := T.servers.filter (fun p => p.1 ∈ sd.hosts || p.1 == addr)
          let demoted := kept.map (demoteEntry addr sd.electionId)
          let updated := setServer demoted addr sd
          { T with ttype := .ReplicaSetWithPrimary,
                   servers := addNewHosts updated sd.hosts,
                   setName := T.setName.orElse (fun _ => sd.setName),
                   maxElectionId := max T.maxElectionId sd.electionId }
    | .RSGhost =>
        { T with servers := setServer T.servers addr sd }
    | _ =>
        let m := setServer T.servers addr sd
        { T with servers := m,
                 setName := T.setName.orElse (fun _ => sd.setName),
                 ttype := match T.ttype with
                          | .Single => .Single
                          | .Sharded => .Sharded
                          | _ => rsType m }

/-- The topology reached from the initial state by a sequence of monitor
updates — the reachable published snapshots (§5: every snapshot is fully
constructed by serialized update application before being published). -/
def runTopology (updates : List (String × HealthResult)) : Topology :=
  updates.foldl (fun T u => applyUpdate T u.1 u.2) initTopology

/-- The state-machine invariant (§3 "Topology Description"): the address
map has no duplicate addresses, every RSPrimary entry's election id is
bounded by the maximum election id seen, and at most one member is
RSPrimary. -/
def TopoInv (T : Topology) : Prop :=
  (T.servers.map Prod.fst).Nodup ∧
  (∀ p ∈ T.servers, isPrimaryEntry p = true → p.2.electionId ≤ T.maxElectionId) ∧
  countPrimaries T.servers ≤ 1

/-! ### Server Selector (§4.4, §3 "Selection Criteria") -/

/-- Modelled from the spec: §4.4 — read preference modes the spec names. -/
inductive ReadPrefMode
  | primary
  | primaryPreferred
  | secondaryPreferred
deriving DecidableEq, Repr

/-- Modelled from the spec: §3 "Selection Criteria" — read preference mode,
tag sets, and a latency window (maximum staleness is not used by any rule
in §4.4 and is omitted). -/
structure SelectionCriteria where
  mode : ReadPrefMode
  tagSets : List (List (String × String))
  latencyWindow : Nat
deriving DecidableEq, Repr

/-- A node matches the criteria's tag sets when there are none, or when all
pairs of some tag set appear among the node's tags (§4.4). -/
def matchesTags (crit : SelectionCriteria) (d : ServerDescription) : Bool :=
  crit.tagSets.isEmpty ||
    crit.tagSets.any (fun ts => ts.all (fun t => t ∈ d.tags))

def secondariesMatching (T : Topology) (crit : SelectionCriteria) :
    List ServerDescription :=
  (T.servers.map Prod.snd).filter
    (fun d => d.stype == ServerType.RSSecondary && matchesTags crit d)

def primariesOf (T : Topology) : List ServerDescription :=
  (T.servers.map Prod.snd).filter (fun d => d.stype == ServerType.RSPrimary)

/-- The shortest round-trip time among candidates. -/
def minRtt (l : List ServerDescription) : Nat :=
  (l.map ServerDescription.roundTrip).foldr min 1000000000

/-- Modelled from the spec: §4.4 — keep the nodes within the latency window
of the fastest candidate.  Per Scenario 4 (secondaries at 10ms and 25ms
with a 15ms window must only ever yield the 10ms one) a node at exactly
shortest-RTT-plus-window lies outside the window. -/
def withinLatencyWindow (w : Nat) (l : List ServerDescription) :
    List ServerDescription :=
  l.filter (fun d => d.roundTrip < minRtt l + w)

/-- Modelled from the spec: §4.4 — topology-type- and criteria-specific
eligibility: for ReplicaSetWithPrimary and primary / primary-preferred
criteria prefer the primary; for secondary-preferred filter to RSSecondary
nodes matching tag sets, then to those within the latency window of the
fastest one.  Single and Sharded topologies use any non-Unknown member;
an Unknown topology has no eligible node. -/
def eligibleServers (T : Topology) (crit : SelectionCriteria) :
    List ServerDescription :=
  match T.ttype with
  | .Unknown => []
  | .Single | .Sharded =>
      (T.servers.map Prod.snd).filter (fun d => !(d.stype == ServerType.Unknown))
  | .ReplicaSetWithPrimary | .ReplicaSetNoPrimary =>
      match crit.mode with
      | .primary => primariesOf T
      | .primaryPreferred =>
          match primariesOf T with
          | [] => withinLatencyWindow crit.latencyWindow (secondariesMatching T crit)
          | ps => ps
      | .secondaryPreferred =>
          match secondariesMatching T crit with
          | [] => primariesOf T
          | ss => withinLatencyWindow crit.latencyWindow ss

/-- Modelled from the spec: §4.4 `select` — choose uniformly at random
among the surviving eligible nodes; the random draw is passed in as
`choice` and reduced modulo the number of survivors. -/
def selectServer (T : Topology) (crit : SelectionCriteria) (choice : Nat) :
    Option ServerDescription :=
  match eligibleServers T crit with
  | [] => none
  | es => es[choice % es.length]?

/-! ### mark_stale_and_clear_pool (§4.1) -/

/-- Modelled from the spec: §4.1 `mark_stale_and_clear_pool(address,
error_generation)` — on a non-timeout network error, increments the
affected pool's generation (disconnecting all stale connections) and
demotes the node to Unknown; on a timeout, the node is marked stale but
the pool is NOT cleared.  The spec gives `error_generation` no further
semantics, so it is carried but unused. -/
def mark_stale_and_clear_pool (T : Topology) (p : Pool) (addr : String)
    (_errorGeneration : Nat) (isTimeout : Bool) : Topology × Pool :=
  let T' := markUnknown T addr
  if isTimeout then (T', p) else (T', clearPool p)

/-! ### Operation Executor (§4.5) -/

/-- Modelled from the spec: §4.5 — the classified outcome of one attempt:
success, a connection-level network error (with whether it struck before
any bytes were sent), or a server error code together with its
"not primary"/"node is recovering" classification (§6: the codec exposes
that classification). -/
inductive AttemptOutcome
  | success
  | networkErr (beforeSend : Bool)
  | serverErr (notPrimaryOrRecovering : Bool) (code : Nat)
deriving DecidableEq, Repr

/-- What the caller sees (§4.5, §7). -/
inductive ExecResult
  | success
  | networkError
  | serverError (code : Nat)
  | selectionFailed
deriving DecidableEq, Repr

/-- The result an attempt outcome surfaces unchanged to the caller. -/
def surface : AttemptOutcome → ExecResult
  | .success => .success
  | .networkErr _ => .networkError
  | .serverErr _ code => .serverError code

/-- The executor's trace: the final result, the addresses attempted in
order, and the topology after the executor's reports. -/
structure ExecTrace where
  result : ExecResult
  attempts : List String
  topo : Topology
deriving DecidableEq, Repr

/-- Modelled from the spec: §4.5 — the single retry attempt: reselect a
server from the already-updated topology, run the second attempt, and
surface its outcome whatever it is ("a second failure of any kind is
surfaced"); a second state-change or network failure is still reported to
the Topology State Machine. -/
def retryAttempt (T : Topology) (crit : SelectionCriteria)
    (outcomes : Nat → AttemptOutcome) (chooser : Nat → Nat)
    (firstAddr : String) : ExecTrace :=
  match selectServer T crit (chooser 1) with
  | none => { result := .selectionFailed, attempts := [firstAddr], topo := T }
  | some s =>
      match outcomes 1 with
      | .success =>
          { result := .success, attempts := [firstAddr, s.address], topo := T }
      | .networkErr _ =>
          { result := .networkError, attempts := [firstAddr, s.address],
            topo := markUnknown T s.address }
      | .serverErr np code =>
          { result := .serverError code, attempts := [firstAddr, s.address],
            topo := if np then markUnknown T s.address else T }

/-- Modelled from the spec: §4.5 Operation Executor — select a server, run
the operation, classify the outcome:
* network error before any bytes were sent → retryable (for a retryable
  operation): reselect and retry once; otherwise surfaced;
* server-reported "not primary"/"node is recovering" → report to the
  Topology State Machine (§4.1 fast path, marking the node Unknown), then
  retry once on a freshly selected node if the operation is retryable,
  otherwise surface the error;
* any other server error → surfaced unchanged, not retried;
* exactly one retry attempt is ever made. -/
def execute (T : Topology) (crit : SelectionCriteria) (retryable : Bool)
    (outcomes : Nat → AttemptOutcome) (chooser : Nat → Nat) : ExecTrace :=
  match selectServer T crit (chooser 0) with
  | none => { result := .selectionFailed, attempts := [], topo := T }
  | some s =>
      match outcomes 0 with
      | .success => { result := .success, attempts := [s.address], topo := T }
      | .networkErr beforeSend =>
          let T' := markUnknown T s.address
          if retryable && beforeSend then
            retryAttempt T' crit outcomes chooser s.address
          else
            { result := .networkError, attempts := [s.address], topo := T' }
      | .serverErr np code =>
          if np then
            let T' := markUnknown T s.address
            if retryable then
              retryAttempt T' crit outcomes chooser s.address
            else
              { result := .serverError code, attempts := [s.address], topo := T' }
          else
            { result := .serverError code, attempts := [s.address], topo := T }

/-! ### Connection-stepdown behavior (tests/spec/connection_stepdown.rs) -/

/-- "Not primary" server error codes (NotMaster 10107,
NotMasterNoSlaveOk 13435), per the SDAM error classification the driver
follows; the stepdown tests exercise 10107. -/
def isNotPrimaryCode (code : Nat) : Bool :=
  code == 10107 || code == 13435

/-- "Node is recovering" server error codes (InterruptedAtShutdown 11600,
InterruptedDueToReplStateChange 11602, NotMasterOrSecondary 13436,
PrimarySteppedDown 189, ShutdownInProgress 91). -/
def isRecoveringCode (code : Nat) : Bool :=
  code == 11600 || code == 11602 || code == 13436 || code == 189 || code == 91

def isStateChangeCode (code : Nat) : Bool :=
  isNotPrimaryCode code || isRecoveringCode code

/-- Shutdown error codes (ShutdownInProgress 91, InterruptedAtShutdown
11600), which clear the pool on every server version. -/
def isShutdownCode (code : Nat) : Bool :=
  code == 91 || code == 11600

/-- Modelled from the spec: the pool-clearing decision for a server error,
absent from `src/` and from the spec text; its behavior is fixed by the
expectations of `tests/spec/connection_stepdown.rs`: a "not primary"/
"node is recovering" error clears the pool only when the server is older
than 4.2 (maximum wire version < 8) or the code is a shutdown code —
4.2+ servers (wire version ≥ 8) keep the pool on a bare "not primary". -/
def shouldClearPool (maxWireVersion code : Nat) : Bool :=
  isStateChangeCode code && (isShutdownCode code || maxWireVersion < 8)

/-- The client-side state the stepdown tests observe: the node's pool, how
many pool-cleared events were emitted, and whether the node was marked
Unknown (stale) in the topology. -/
structure StepdownState where
  pool : Pool
  clearedEvents : Nat
  serverMarkedUnknown : Bool
deriving DecidableEq, Repr

def stepdownInit : StepdownState :=
  { pool := initPool { minSize := 0, maxSize := 100, maxIdleTime := 1000 },
    clearedEvents := 0, serverMarkedUnknown := false }

/-- One application operation that the server fails with `code`: check a
connection out, receive the error, report it (marking the server stale and
clearing the pool when `shouldClearPool` says so), and check the
connection back in. -/
def runFailingOp (maxWireVersion code now : Nat) (st : StepdownState) :
    StepdownState :=
  match checkout now st.pool with
  | none => st
  | some (_, p) =>
      let cleared := shouldClearPool maxWireVersion code
      let p' := if cleared then clearPool p else p
      { pool := checkin now 0 true p',
        clearedEvents := st.clearedEvents + (if cleared then 1 else 0),
        serverMarkedUnknown := isStateChangeCode code }

/-- One application operation that succeeds: checkout, run, checkin;
returns whether a connection was obtained. -/
def runOkOp (now : Nat) (st : StepdownState) : Bool × StepdownState :=
  match checkout now st.pool with
  | none => (false, st)
  | some (_, p) => (true, { st with pool := checkin now 0 true p })

/-- The shape every stepdown test takes: one operation fails with `code`
against a server of the given maximum wire version, then a second
operation runs on the same pool.  Returns (pool-cleared events, whether
the server was marked stale, whether the second operation succeeded). -/
def stepdownScenario (maxWireVersion code : Nat) : Nat × Bool × Bool :=
  let st1 := runFailingOp maxWireVersion code 1 stepdownInit
  let (ok, _) := runOkOp 2 st1
  (st1.clearedEvents, st1.serverMarkedUnknown, ok)

/-! ### write_concern_to_document (src/test/spec/read_write_concern/mod.rs) -/

/-- A primitive BSON value, as far as write-concern serialization needs. -/
inductive BsonValue
  | int32 (n : Int)
  | int64 (n : Int)
  | boolean (b : Bool)
  | string (s : String)
deriving DecidableEq, Repr

abbrev BsonDocument := List (String × BsonValue)

/-- The `Bson` enum: serialization can yield a document or a bare value. -/
inductive Bson
  | document (d : BsonDocument)
  | value (v : BsonValue)
deriving DecidableEq, Repr

/-- Modelled from the spec: the `Acknowledgment` write-concern `w` value
used by the stepdown and read/write-concern tests (`options::WriteConcern`
is not part of the excerpt): a node count, "majority", or a custom mode
tag. -/
inductive Acknowledgment
  | nodes (n : Nat)
  | majority
  | custom (s : String)
deriving DecidableEq, Repr

/-- Modelled from the spec: `options::WriteConcern` — the optional `w`,
`wtimeout` (milliseconds) and `journal` fields. -/
structure WriteConcern where
  w : Option Acknowledgment
  wTimeout : Option Nat
  journal : Option Bool
deriving DecidableEq, Repr

def serializeAcknowledgment : Acknowledgment → BsonValue
  | .nodes n => .int32 (Int.ofNat n)
  | .majority => .string "majority"
  | .custom s => .string s

/-- A millisecond count only serializes when it fits a signed 64-bit
integer; otherwise BSON serialization reports an error. -/
def serializeMillis (n : Nat) : Except String BsonValue :=
  if n < 2 ^ 63 then .ok (.int64 (Int.ofNat n)) else .error "ms out of range"

/-- Modelled from the spec: `bson::to_bson` applied to a `WriteConcern` —
serde serialization of a struct with named (optional, skipped-when-none)
fields: each present field serializes to a BSON value and the struct
itself always becomes `Bson::Document`; a field failure becomes `Err`. -/
def to_bson (wc : WriteConcern) : Except String Bson := do
  let f1 : BsonDocument :=
    match wc.w with
    | none => []
    | some a => [("w", serializeAcknowledgment a)]
  let f2 : BsonDocument ←
    match wc.wTimeout with
    | none => pure []
    | some n => do pure [("wtimeout", ← serializeMillis n)]
  let f3 : BsonDocument :=
    match wc.journal with
    | none => []
    | some b => [("j", .boolean b)]
  return .document (f1 ++ f2 ++ f3)

/-- What `write_concern_to_document` evaluates to: `Ok(doc)`, a propagated
serialization error, or the `unreachable!()` branch. -/
inductive WtdResult
  | ok (d : BsonDocument)
  | err (e : String)
  | unreachableHit
deriving DecidableEq, Repr

/-- `write_concern_to_document` from
src/test/spec/read_write_concern/mod.rs: `bson::to_bson(&write_concern)?`,
then match — `Bson::Document(doc) => Ok(doc)`, any other variant hits
`unreachable!()`. -/
def write_concern_to_document (wc : WriteConcern) : WtdResult :=
  match to_bson wc with
  | .error e => .err e
  | .ok (.document d) => .ok d
  | .ok _ => .unreachableHit

/-! ### Concrete fixtures for the spec's scenarios -/

/-- Scenario 1 (§8): node A reporting itself RSPrimary with election id 2. -/
def scenario1DescA : ServerDescription :=
  { address := "a:27017", stype := .RSPrimary, roundTrip := 5,
    setName := some "rs", tags := [], electionId := 2,
    hosts := ["a:27017", "b:27017"] }

/-- Scenario 1 (§8): node B reporting itself RSPrimary with election id 1. -/
def scenario1DescB : ServerDescription :=
  { address := "b:27017", stype := .RSPrimary, roundTrip := 5,
    setName := some "rs", tags := [], electionId := 1,
    hosts := ["a:27017", "b:27017"] }

/-- The topology after node A's report is applied to the initial state. -/
def scenario1AfterA : Topology :=
  applyUpdate initTopology "a:27017" (.ok scenario1DescA)

/-- Scenario 4 (§8): a ReplicaSetWithPrimary topology with a primary and
two secondaries with round-trip times 10ms and 25ms. -/
def scenario4Primary : ServerDescription :=
  { address := "p:27017", stype := .RSPrimary, roundTrip := 5,
    setName := some "rs", tags := [], electionId := 1,
    hosts := ["p:27017", "s1:27017", "s2:27017"] }

def scenario4Secondary10 : ServerDescription :=
  { address := "s1:27017", stype := .RSSecondary, roundTrip := 10,
    setName := some "rs", tags := [], electionId := 0,
    hosts := ["p:27017", "s1:27017", "s2:27017"] }

def scenario4Secondary25 : ServerDescription :=
  { address := "s2:27017", stype := .RSSecondary, roundTrip := 25,
    setName := some "rs", tags := [], electionId := 0,
    hosts := ["p:27017", "s1:27017", "s2:27017"] }

def scenario4Topology : Topology :=
  { ttype := .ReplicaSetWithPrimary,
    servers := [("p:27017", scenario4Primary),
                ("s1:27017", scenario4Secondary10),
                ("s2:27017", scenario4Secondary25)],
    setName := some "rs", maxElectionId := 1 }

/-- Scenario 4 (§8): secondary-preferred criteria with a 15ms window. -/
def scenario4Criteria : SelectionCriteria :=
  { mode := .secondaryPreferred, tagSets := [], latencyWindow := 15 }

/-- Primary-preferred criteria, used to exercise the executor's retry. -/
def primaryPreferredCriteria : SelectionCriteria :=
  { mode := .primaryPreferred, tagSets := [], latencyWindow := 15 }

/-- An attempt behavior whose first attempt fails with the server-reported
"not primary" code 10107 and whose second attempt succeeds (§8 Scenario 3). -/
def notPrimaryThenSuccess : Nat → AttemptOutcome :=
  fun n => if n = 0 then .serverErr true 10107 else .success

/-! ## Connection-pool lemmas -/

theorem addFresh_config (now : Nat) : ∀ (n : Nat) (p : Pool),
    (addFresh now n p).config = p.config := by
  intro n
  induction n with
  | zero => intro p; rfl
  | succ k ih => intro p; exact (ih _).trans rfl

theorem addFresh_total (now : Nat) : ∀ (n : Nat) (p : Pool),
    (addFresh now n p).total = p.total + n := by
  intro n
  induction n with
  | zero => intro p; rfl
  | succ k ih =>
      intro p
      show (addFresh now k _).total = _
      rw [ih]
      simp only [Pool.total, List.length_cons]
      omega

/-- What a successful `checkout` did: either it handed out the first
generation-matching available connection, or it created a fresh one under
the max-size bound. -/
theorem checkout_cases (now : Nat) (p : Pool) (c : Connection) (p' : Pool)
    (h : checkout now p = some (c, p')) :
    (∃ c0 rest,
        p.available.filter (fun x => x.generation == p.generation) = c0 :: rest ∧
        c = { c0 with lastUsedAt := now } ∧
        p' = { p with available := rest, checkedOut := c :: p.checkedOut }) ∨
    (p.available.filter (fun x => x.generation == p.generation) = [] ∧
        p.checkedOut.length < p.config.maxSize ∧
        c = { id := p.nextId, generation := p.generation, createdAt := now, lastUsedAt := now } ∧
        p' = { p with available := [], checkedOut := c :: p.checkedOut, nextId := p.nextId + 1 }) := by
  revert h
  simp only [checkout]
  cases hf : p.available.filter (fun x => x.generation == p.generation) with
  | cons c0 rest =>
      intro h
      simp only [Option.some.injEq, Prod.mk.injEq] at h
      obtain ⟨hc, hp⟩ := h
      exact Or.inl ⟨c0, rest, rfl, hc.symm, by rw [← hp, ← hc]⟩
  | nil =>
      intro h
      by_cases hlt : p.checkedOut.length < p.config.maxSize
      · simp only [hlt, if_true] at h
        simp only [Option.some.injEq, Prod.mk.injEq] at h
        obtain ⟨hc, hp⟩ := h
        exact Or.inr ⟨rfl, hlt, hc.symm, by rw [← hp, ← hc]⟩
      · simp [hlt] at h

theorem applyPoolOp_config (p : Pool) (op : PoolOp) :
    (applyPoolOp p op).config = p.config := by
  cases op with
  | checkout now =>
      simp only [applyPoolOp]
      cases hc : checkout now p with
      | none => rfl
      | some cp =>
          obtain ⟨c, p'⟩ := cp
          rcases checkout_cases now p c p' hc with ⟨c0, rest, _, _, hp⟩ | ⟨_, _, _, hp⟩ <;>
            subst hp <;> rfl
  | checkin now i usable =>
      simp only [applyPoolOp, checkin]
      split
      · rfl
      · split <;> rfl
  | clear => rfl
  | maintain now =>
      simp only [applyPoolOp, maintain]
      rw [addFresh_config]

theorem applyPoolOp_total (p : Pool) (op : PoolOp)
    (h : p.total ≤ p.config.maxSize) :
    (applyPoolOp p op).total ≤ p.config.maxSize := by
  cases op with
  | checkout now =>
      simp only [applyPoolOp]
      cases hc : checkout now p with
      | none => exact h
      | some cp =>
          obtain ⟨c, p'⟩ := cp
          rcases checkout_cases now p c p' hc with
            ⟨c0, rest, hf, hceq, hp⟩ | ⟨hf, hlt, hceq, hp⟩
          · have hlen : rest.length + 1 ≤ p.available.length := by
              have := List.length_filter_le
                (fun x => x.generation == p.generation) p.available
              rw [hf] at this
              simpa using this
            subst hp
            simp only [Pool.total, List.length_cons] at h ⊢
            omega
          · subst hp
            simp only [Pool.total, List.length_cons, List.length_nil]
            omega
  | checkin now i usable =>
      simp only [applyPoolOp, checkin]
      split
      · exact h
      · rename_i c2 hg
        obtain ⟨hi, -⟩ := List.getElem?_eq_some.mp hg
        have herase : (p.checkedOut.eraseIdx i).length = p.checkedOut.length - 1 := by
          rw [List.length_eraseIdx, if_pos hi]
        split
        · simp only [Pool.total, List.length_cons] at h ⊢
          rw [herase]
          omega
        · simp only [Pool.total] at h ⊢
          rw [herase]
          omega
  | clear => exact h
  | maintain now =>
      simp only [applyPoolOp, maintain]
      rw [addFresh_total]
      have hkept : (p.available.filter
          (fun c => now - c.lastUsedAt ≤ p.config.maxIdleTime)).length
          ≤ p.available.length := List.length_filter_le _ _
      simp only [Pool.total] at h ⊢
      omega

theorem foldl_applyPoolOp_config : ∀ (ops : List PoolOp) (p : Pool),
    (ops.foldl applyPoolOp p).config = p.config := by
  intro ops
  induction ops with
  | nil => intro p; rfl
  | cons op rest ih =>
      intro p
      rw [List.foldl_cons, ih, applyPoolOp_config]

theorem foldl_applyPoolOp_total : ∀ (ops : List PoolOp) (p : Pool),
    p.total ≤ p.config.maxSize →
    (ops.foldl applyPoolOp p).total ≤ p.config.maxSize := by
  intro ops
  induction ops with
  | nil => intro p h; exact h
  | cons op rest ih =>
      intro p h
      rw [List.foldl_cons]
      have hstep : (applyPoolOp p op).total ≤ (applyPoolOp p op).config.maxSize := by
        rw [applyPoolOp_config]; exact applyPoolOp_total p op h
      have := ih (applyPoolOp p op) hstep
      rwa [applyPoolOp_config] at this

/-- C5: for every Connection Pool state reachable by any sequence of
checkout, checkin, clear, and background-maintenance operations, the total
number of live connections (available plus checked out) never exceeds the
pool's configured maximum size (§3, §8). -/
theorem pool_total_le_max (cfg : PoolConfig) (ops : List PoolOp) :
    (runPool cfg ops).total ≤ cfg.maxSize := by
  have h0 : (initPool cfg).total ≤ (initPool cfg).config.maxSize := by
    simp [initPool, Pool.total]
  have := foldl_applyPoolOp_total ops (initPool cfg) h0
  simpa [runPool, initPool] using this

/-- C1: checkout never returns a connection whose generation number
differs from the pool's current generation, and `clear()` strictly
increments the generation — hence no connection created before a clear
(whose generation was copied from the pool at creation time, §3) is ever
returned by a subsequent checkout (§4.3, §8). -/
theorem checkout_respects_generation (p : Pool) (now : Nat) (c : Connection)
    (p' : Pool) (h : checkout now p = some (c, p')) :
    c.generation = p.generation ∧
    (clearPool p).generation = p.generation + 1 := by
  refine ⟨?_, rfl⟩
  rcases checkout_cases now p c p' h with ⟨c0, rest, hf, hceq, -⟩ | ⟨-, -, hceq, -⟩
  · have hmem : c0 ∈ p.available.filter (fun x => x.generation == p.generation) := by
      rw [hf]; exact List.mem_cons_self _ _
    have := List.of_mem_filter hmem
    subst hceq
    simpa using this
  · subst hceq
    rfl

/-- Concrete instantiation of `checkout_respects_generation`: checking out
of an empty two-slot pool creates a generation-0 connection. -/
theorem checkout_respects_generation_witness :
    (⟨0, 0, 5, 5⟩ : Connection).generation = (initPool ⟨0, 2, 10⟩).generation ∧
    (clearPool (initPool ⟨0, 2, 10⟩)).generation = (initPool ⟨0, 2, 10⟩).generation + 1 :=
  checkout_respects_generation (initPool ⟨0, 2, 10⟩) 5 ⟨0, 0, 5, 5⟩
    { initPool ⟨0, 2, 10⟩ with checkedOut := [⟨0, 0, 5, 5⟩], nextId := 1 }
    (by decide)

/-! ## Association-list lemmas for the server map -/

theorem setServer_cons_eq {k a : String} (h : k = a) (v d : ServerDescription)
    (rest : List (String × ServerDescription)) :
    setServer ((k, v) :: rest) a d = (a, d) :: rest := by
  simp [setServer, h]

theorem setServer_cons_ne {k a : String} (h : ¬k = a) (v d : ServerDescription)
    (rest : List (String × ServerDescription)) :
    setServer ((k, v) :: rest) a d = (k, v) :: setServer rest a d := by
  simp [setServer, h]

theorem lookupServer_setServer_self : ∀ (l : List (String × ServerDescription))
    (a : String) (d : ServerDescription),
    lookupServer (setServer l a d) a = some d := by
  intro l
  induction l with
  | nil => intro a d; simp [setServer, lookupServer]
  | cons kv rest ih =>
      intro a d
      obtain ⟨k, v⟩ := kv
      by_cases hk : k = a
      · simp [setServer, hk, lookupServer]
      · simp [setServer, hk, lookupServer, ih]

theorem mem_setServer : ∀ {l : List (String × ServerDescription)}
    {a : String} {d : ServerDescription} {p : String × ServerDescription},
    p ∈ setServer l a d → p ∈ l ∨ p = (a, d) := by
  intro l
  induction l with
  | nil => intro a d p hp; simp [setServer] at hp; exact Or.inr hp
  | cons kv rest ih =>
      intro a d p hp
      obtain ⟨k, v⟩ := kv
      by_cases hk : k = a
      · simp only [setServer, if_pos hk, List.mem_cons] at hp
        rcases hp with hp | hp
        · exact Or.inr hp
        · exact Or.inl (List.mem_cons_of_mem _ hp)
      · simp only [setServer, if_neg hk, List.mem_cons] at hp
        rcases hp with hp | hp
        · exact Or.inl (by simp [hp])
        · rcases ih hp with h | h
          · exact Or.inl (List.mem_cons_of_mem _ h)
          · exact Or.inr h

theorem setServer_setServer : ∀ (l : List (String × ServerDescription))
    (a : String) (d : ServerDescription),
    setServer (setServer l a d) a d = setServer l a d := by
  intro l
  induction l with
  | nil => intro a d; simp [setServer]
  | cons kv rest ih =>
      intro a d
      obtain ⟨k, v⟩ := kv
      by_cases hk : k = a
      · simp [setServer, hk]
      · simp [setServer, hk, ih]

theorem setServer_eq_of_lookup : ∀ {l : List (String × ServerDescription)}
    {a : String} {d : ServerDescription},
    lookupServer l a = some d → setServer l a d = l := by
  intro l
  induction l with
  | nil => intro a d h; simp [lookupServer] at h
  | cons kv rest ih =>
      intro a d h
      obtain ⟨k, v⟩ := kv
      by_cases hk : k = a
      · simp only [lookupServer, if_pos hk, Option.some.injEq] at h
        simp [setServer, hk, ← h]
      · simp only [lookupServer, if_neg hk] at h
        simp [setServer, hk, ih h]

theorem lookupServer_append_of_some : ∀ {l l2 : List (String × ServerDescription)}
    {a : String} {d : ServerDescription},
    lookupServer l a = some d → lookupServer (l ++ l2) a = some d := by
  intro l
  induction l with
  | nil => intro l2 a d h; simp [lookupServer] at h
  | cons kv rest ih =>
      intro l2 a d h
      obtain ⟨k, v⟩ := kv
      by_cases hk : k = a
      · simpa [lookupServer, hk] using h
      · simp only [lookupServer, if_neg hk] at h
        simpa [lookupServer, hk] using ih h

theorem lookupServer_append_of_none : ∀ {l : List (String × ServerDescription)}
    (l2 : List (String × ServerDescription)) {a : String},
    lookupServer l a = none → lookupServer (l ++ l2) a = lookupServer l2 a := by
  intro l
  induction l with
  | nil => intro l2 a _; rfl
  | cons kv rest ih =>
      intro l2 a h
      obtain ⟨k, v⟩ := kv
      by_cases hk : k = a
      · simp [lookupServer, hk] at h
      · simp only [lookupServer, if_neg hk] at h
        simpa [lookupServer, hk] using ih l2 h

theorem lookupServer_addNewHosts_of_some : ∀ (hs : List String)
    {l : List (String × ServerDescription)} {a : String} {d : ServerDescription},
    lookupServer l a = some d → lookupServer (addNewHosts l hs) a = some d := by
  intro hs
  induction hs with
  | nil => intro l a d h; exact h
  | cons h0 rest ih =>
      intro l a d h
      simp only [addNewHosts]
      by_cases hc : containsAddr l h0
      · simp only [hc, if_true]
        exact ih h
      · simp only [hc, if_false]
        exact ih (lookupServer_append_of_some h)

theorem containsAddr_addNewHosts_of_mem : ∀ (hs : List String)
    (l : List (String × ServerDescription)) {h : String},
    h ∈ hs → containsAddr (addNewHosts l hs) h = true := by
  intro hs
  induction hs with
  | nil => intro l h hh; simp at hh
  | cons h0 rest ih =>
      intro l h hh
      simp only [addNewHosts]
      rcases List.mem_cons.mp hh with rfl | hh
      · by_cases hc : containsAddr l h
        · simp only [hc, if_true]
          obtain ⟨d, hd⟩ := Option.isSome_iff_exists.mp hc
          simp [containsAddr, lookupServer_addNewHosts_of_some rest hd]
        · simp only [hc, if_false]
          have hnone : lookupServer l h = none := by
            cases he : lookupServer l h with
            | none => rfl
            | some d => exact absurd (by simp [containsAddr, he]) hc
          have : lookupServer (l ++ [(h, unknownDesc h)]) h = some (unknownDesc h) := by
            rw [lookupServer_append_of_none _ hnone]
            simp [lookupServer]
          simp [containsAddr, lookupServer_addNewHosts_of_some rest this]
      · by_cases hc : containsAddr l h0
        · simp only [hc, if_true]; exact ih l hh
        · simp only [hc, if_false]; exact ih _ hh

theorem addNewHosts_eq_self : ∀ (hs : List String)
    (l : List (String × ServerDescription)),
    (∀ h ∈ hs, containsAddr l h = true) → addNewHosts l hs = l := by
  intro hs
  induction hs with
  | nil => intro l _; rfl
  | cons h0 rest ih =>
      intro l hall
      simp only [addNewHosts, hall h0 (List.mem_cons_self _ _), if_true]
      exact ih l (fun h hh => hall h (List.mem_cons_of_mem _ hh))

theorem mem_addNewHosts : ∀ (hs : List String)
    {l : List (String × ServerDescription)} {p : String × ServerDescription},
    p ∈ addNewHosts l hs → p ∈ l ∨ ∃ h, h ∈ hs ∧ p = (h, unknownDesc h) := by
  intro hs
  induction hs with
  | nil => intro l p hp; exact Or.inl hp
  | cons h0 rest ih =>
      intro l p hp
      simp only [addNewHosts] at hp
      by_cases hc : containsAddr l h0
      · simp only [hc, if_true] at hp
        rcases ih hp with h | ⟨h, hh, he⟩
        · exact Or.inl h
        · exact Or.inr ⟨h, List.mem_cons_of_mem _ hh, he⟩
      · simp only [hc, if_false] at hp
        rcases ih hp with h | ⟨h, hh, he⟩
        · rcases List.mem_append.mp h with h | h
          · exact Or.inl h
          · simp only [List.mem_singleton] at h
            exact Or.inr ⟨h0, List.mem_cons_self _ _, h⟩
        · exact Or.inr ⟨h, List.mem_cons_of_mem _ hh, he⟩

theorem demoteEntry_fst (addr : String) (eid : Nat) (p : String × ServerDescription) :
    (demoteEntry addr eid p).1 = p.1 := by
  unfold demoteEntry
  split <;> rfl

theorem demoteEntry_cases (addr : String) (eid : Nat) (p : String × ServerDescription) :
    demoteEntry addr eid p = p ∨ demoteEntry addr eid p = (p.1, unknownDesc p.1) := by
  unfold demoteEntry
  split
  · exact Or.inr rfl
  · exact Or.inl rfl

theorem demoteEntry_idem (addr : String) (eid : Nat) (p : String × ServerDescription) :
    demoteEntry addr eid (demoteEntry addr eid p) = demoteEntry addr eid p := by
  rcases demoteEntry_cases addr eid p with h | h
  · rw [h]
    exact h
  · rw [h]
    simp [demoteEntry, isPrimaryEntry, unknownDesc]

/-! ## C4: mark_stale_and_clear_pool -/

/-- C4: on a non-timeout network error, `mark_stale_and_clear_pool`
increments the affected pool's generation and demotes the node's
description to Unknown; on a timeout, the node is marked stale but the
pool — its generation counter and its available connections — is left
unchanged (§4.1, §7). -/
theorem mark_stale_and_clear_pool_behavior (T : Topology) (p : Pool)
    (addr : String) (g : Nat) :
    ((mark_stale_and_clear_pool T p addr g false).2.generation = p.generation + 1 ∧
     lookupServer (mark_stale_and_clear_pool T p addr g false).1.servers addr =
       some (unknownDesc addr)) ∧
    ((mark_stale_and_clear_pool T p addr g true).2 = p ∧
     lookupServer (mark_stale_and_clear_pool T p addr g true).1.servers addr =
       some (unknownDesc addr)) := by
  refine ⟨⟨rfl, ?_⟩, ⟨rfl, ?_⟩⟩ <;>
    simp [mark_stale_and_clear_pool, markUnknown, lookupServer_setServer_self]

/-! ## C7: a stale primary report is rejected -/

/-- C7 (§8 Scenario 1): after node A is accepted as RSPrimary with
election id 2 (topology ReplicaSetWithPrimary, A primary), a report of
node B as RSPrimary with election id 1 is rejected: the topology is
unchanged, A remains the primary. -/
theorem stale_primary_rejected :
    applyUpdate scenario1AfterA "b:27017" (.ok scenario1DescB) = scenario1AfterA ∧
    scenario1AfterA.ttype = .ReplicaSetWithPrimary ∧
    lookupServer scenario1AfterA.servers "a:27017" = some scenario1DescA ∧
    (lookupServer scenario1AfterA.servers "b:27017").map
      (fun d => d.stype) = some .Unknown := by
  refine ⟨?_, ?_, ?_, ?_⟩ <;> decide

/-! ## C9: wire-version-dependent pool clearing on stepdown errors -/

/-- C9 (tests/spec/connection_stepdown.rs): against a 4.2+ server
(maximum wire version 8), error code 10107 ("not primary") marks the
server stale, emits zero pool-cleared events, and the next operation on
the same pool succeeds; against a 4.0 server (wire version 7) the same
code clears the pool exactly once; shutdown codes 91 and 11600 clear the
pool exactly once on either server version. -/
theorem stepdown_pool_clearing :
    stepdownScenario 8 10107 = (0, true, true) ∧
    stepdownScenario 7 10107 = (1, true, true) ∧
    stepdownScenario 8 91 = (1, true, true) ∧
    stepdownScenario 7 91 = (1, true, true) ∧
    stepdownScenario 8 11600 = (1, true, true) ∧
    stepdownScenario 7 11600 = (1, true, true) := by
  decide

/-! ## C10: write_concern_to_document never hits unreachable!() -/

/-- C10: for every WriteConcern value, `write_concern_to_document` either
propagates a BSON serialization error or returns Ok with a Document —
serializing a WriteConcern struct always produces the `Bson::Document`
variant, so the `unreachable!()` branch is never executed. -/
theorem write_concern_to_document_total (wc : WriteConcern) :
    ((∃ d, write_concern_to_document wc = .ok d) ∨
     (∃ e, write_concern_to_document wc = .err e)) ∧
    write_concern_to_document wc ≠ .unreachableHit := by
  have hkey : write_concern_to_document wc ≠ .unreachableHit := by
    unfold write_concern_to_document to_bson
    cases hw : wc.wTimeout with
    | none => simp [bind, Except.bind, pure, Except.pure]
    | some n =>
        simp only [serializeMillis, bind, Except.bind, pure, Except.pure]
        split
        · simp
        · simp
        · rename_i a hnotdoc heq
          split at heq
          · exact Except.noConfusion heq
          · injection heq with h
            exact absurd h.symm (by simpa using hnotdoc _)
  refine ⟨?_, hkey⟩
  cases hres : write_concern_to_document wc with
  | ok d => exact Or.inl ⟨d, rfl⟩
  | err e => exact Or.inr ⟨e, rfl⟩
  | unreachableHit => exact absurd hres hkey

/-! ## C8: latency-window filtering in server selection -/

/-- C8 (§4.4, §8 Scenario 4): with a ReplicaSetWithPrimary topology and
secondary-preferred criteria (secondaries present), every eligible node is
an RSSecondary whose round-trip time lies within
shortest-eligible-RTT + latency-window; in particular, with two
secondaries at 10ms and 25ms and a 15ms window, `select` returns the 10ms
secondary on every invocation (every random draw `choice`). -/
theorem latency_window_selection (T : Topology) (crit : SelectionCriteria)
    (d : ServerDescription) (choice : Nat)
    (hm : crit.mode = .secondaryPreferred)
    (ht : T.ttype = .ReplicaSetWithPrimary)
    (hne : secondariesMatching T crit ≠ [])
    (hd : d ∈ eligibleServers T crit) :
    (d.stype = .RSSecondary ∧
     d.roundTrip < minRtt (secondariesMatching T crit) + crit.latencyWindow) ∧
    selectServer scenario4Topology scenario4Criteria choice =
      some scenario4Secondary10 := by
  have hconc : selectServer scenario4Topology scenario4Criteria choice =
      some scenario4Secondary10 := by
    have hel : eligibleServers scenario4Topology scenario4Criteria =
        [scenario4Secondary10] := by decide
    simp [selectServer, hel, Nat.mod_one]
  cases hs : secondariesMatching T crit with
  | nil => exact absurd hs hne
  | cons a as =>
      have he : eligibleServers T crit =
          withinLatencyWindow crit.latencyWindow (a :: as) := by
        simp only [eligibleServers, ht, hm, hs]
      rw [he] at hd
      have hpred : d.roundTrip < minRtt (a :: as) + crit.latencyWindow := by
        simpa using List.of_mem_filter hd
      have hdin : d ∈ a :: as := List.mem_of_mem_filter hd
      have hdin2 : d ∈ secondariesMatching T crit := hs ▸ hdin
      have hsec : d.stype = .RSSecondary := by
        have := List.of_mem_filter (p := fun x =>
          x.stype == ServerType.RSSecondary && matchesTags crit x) hdin2
        simp only [Bool.and_eq_true, beq_iff_eq] at this
        exact this.1
      exact ⟨⟨hsec, hpred⟩, hconc⟩

/-- Concrete instantiation of `latency_window_selection` at the Scenario 4
topology: the 10ms secondary is eligible, within the window, and selected. -/
theorem latency_window_selection_witness :
    (scenario4Secondary10.stype = .RSSecondary ∧
     scenario4Secondary10.roundTrip <
       minRtt (secondariesMatching scenario4Topology scenario4Criteria) +
         scenario4Criteria.latencyWindow) ∧
    selectServer scenario4Topology scenario4Criteria 3 =
      some scenario4Secondary10 :=
  latency_window_selection scenario4Topology scenario4Criteria
    scenario4Secondary10 3 rfl rfl (by decide) (by decide)

/-! ## C3: executor fast path on "not primary"/"node is recovering" -/

/-- C3 (§4.1, §4.5): when an attempt fails with a server-reported
"not primary"/"node is recovering" error, the executor reports it to the
Topology State Machine — the node is Unknown in the topology the retry
selects from, without waiting for a heartbeat — then retries exactly once
on a freshly selected node if the operation is retryable (the second
outcome, whatever it is, is surfaced); if not retryable, the server error
is surfaced unchanged. -/
theorem executor_not_primary_fast_path
    (T : Topology) (crit : SelectionCriteria) (retryable : Bool)
    (outcomes : Nat → AttemptOutcome) (chooser : Nat → Nat)
    (s s' : ServerDescription) (code : Nat)
    (h1 : selectServer T crit (chooser 0) = some s)
    (h2 : outcomes 0 = .serverErr true code)
    (h3 : selectServer (markUnknown T s.address) crit (chooser 1) = some s') :
    lookupServer (markUnknown T s.address).servers s.address =
      some (unknownDesc s.address) ∧
    (retryable = true →
       (execute T crit retryable outcomes chooser).attempts =
         [s.address, s'.address] ∧
       (execute T crit retryable outcomes chooser).result =
         surface (outcomes 1)) ∧
    (retryable = false →
       execute T crit retryable outcomes chooser =
         { result := .serverError code, attempts := [s.address],
           topo := markUnknown T s.address }) := by
  refine ⟨by simp [markUnknown, lookupServer_setServer_self], ?_, ?_⟩
  · intro hr
    subst hr
    simp only [execute, h1, h2, retryAttempt, h3, if_true]
    cases ho : outcomes 1 <;> simp [surface]
  · intro hr
    subst hr
    simp only [execute, h1, h2, if_true, if_false, Bool.false_eq_true]

/-- Concrete instantiation of `executor_not_primary_fast_path`: primary
fails with code 10107, the topology the retry selects from has it
Unknown, and the retry runs on the freshly selected 10ms secondary. -/
theorem executor_not_primary_fast_path_witness :
    lookupServer (markUnknown scenario4Topology scenario4Primary.address).servers
      scenario4Primary.address = some (unknownDesc scenario4Primary.address) ∧
    (true = true →
       (execute scenario4Topology primaryPreferredCriteria true
           notPrimaryThenSuccess (fun _ => 0)).attempts =
         [scenario4Primary.address, scenario4Secondary10.address] ∧
       (execute scenario4Topology primaryPreferredCriteria true
           notPrimaryThenSuccess (fun _ => 0)).result =
         surface (notPrimaryThenSuccess 1)) ∧
    (true = false →
       execute scenario4Topology primaryPreferredCriteria true
           notPrimaryThenSuccess (fun _ => 0) =
         { result := .serverError 10107, attempts := [scenario4Primary.address],
           topo := markUnknown scenario4Topology scenario4Primary.address }) :=
  executor_not_primary_fast_path scenario4Topology primaryPreferredCriteria true
    notPrimaryThenSuccess (fun _ => 0) scenario4Primary scenario4Secondary10 10107
    (by decide) (by decide) (by decide)

/-! ## C2: at most one RSPrimary in every reachable topology -/

theorem lookupServer_eq_none_iff : ∀ {l : List (String × ServerDescription)}
    {a : String}, lookupServer l a = none ↔ a ∉ l.map Prod.fst := by
  intro l
  induction l with
  | nil => intro a; simp [lookupServer]
  | cons kv rest ih =>
      intro a
      obtain ⟨k, v⟩ := kv
      by_cases hk : k = a
      · simp [lookupServer, hk]
      · simp [lookupServer, hk, ih, Ne.symm hk]

theorem mem_keys_setServer : ∀ {l : List (String × ServerDescription)}
    {a b : String} {d : ServerDescription},
    b ∈ (setServer l a d).map Prod.fst → b ∈ l.map Prod.fst ∨ b = a := by
  intro l
  induction l with
  | nil => intro a b d h; simp [setServer] at h; exact Or.inr h
  | cons kv rest ih =>
      intro a b d h
      obtain ⟨k, v⟩ := kv
      by_cases hk : k = a
      · simp only [setServer, if_pos hk, List.map_cons, List.mem_cons] at h
        rcases h with rfl | h
        · exact Or.inr rfl
        · exact Or.inl (by simp [h])
      · simp only [setServer, if_neg hk, List.map_cons, List.mem_cons] at h
        rcases h with rfl | h
        · exact Or.inl (by simp)
        · rcases ih h with h | h
          · exact Or.inl (by simp [h])
          · exact Or.inr h

theorem nodup_keys_setServer : ∀ {l : List (String × ServerDescription)}
    {a : String} {d : ServerDescription},
    (l.map Prod.fst).Nodup → ((setServer l a d).map Prod.fst).Nodup := by
  intro l
  induction l with
  | nil => intro a d _; simp [setServer]
  | cons kv rest ih =>
      intro a d hn
      obtain ⟨k, v⟩ := kv
      simp only [List.map_cons, List.nodup_cons] at hn
      obtain ⟨hk0, hn0⟩ := hn
      by_cases hk : k = a
      · subst hk
        rw [setServer_cons_eq rfl]
        simp only [List.map_cons, List.nodup_cons]
        exact ⟨hk0, hn0⟩
      · rw [setServer_cons_ne hk]
        simp only [List.map_cons, List.nodup_cons]
        refine ⟨?_, ih hn0⟩
        intro hmem
        rcases mem_keys_setServer hmem with h | h
        · exact hk0 h
        · exact hk h

theorem keys_map_demote (addr : String) (eid : Nat)
    (l : List (String × ServerDescription)) :
    ((l.map (demoteEntry addr eid)).map Prod.fst) = l.map Prod.fst := by
  rw [List.map_map]
  exact List.map_congr_left (fun p _ => demoteEntry_fst addr eid p)

theorem nodup_keys_filter (f : String × ServerDescription → Bool)
    {l : List (String × ServerDescription)}
    (hn : (l.map Prod.fst).Nodup) : ((l.filter f).map Prod.fst).Nodup :=
  hn.sublist (List.Sublist.map Prod.fst (List.filter_sublist l))

theorem nodup_keys_addNewHosts : ∀ (hs : List String)
    (l : List (String × ServerDescription)),
    (l.map Prod.fst).Nodup → ((addNewHosts l hs).map Prod.fst).Nodup := by
  intro hs
  induction hs with
  | nil => intro l hn; exact hn
  | cons h0 rest ih =>
      intro l hn
      simp only [addNewHosts]
      by_cases hc : containsAddr l h0
      · simp only [hc, if_true]
        exact ih l hn
      · simp only [hc, if_false]
        apply ih
        have hnone : lookupServer l h0 = none := by
          cases hl : lookupServer l h0 with
          | none => rfl
          | some d =>
              exfalso
              apply hc
              simp [containsAddr, hl]
        have hnotmem : h0 ∉ l.map Prod.fst := lookupServer_eq_none_iff.mp hnone
        simp [List.nodup_append, hn, hnotmem]

theorem countPrimaries_addNewHosts : ∀ (hs : List String)
    (l : List (String × ServerDescription)),
    countPrimaries (addNewHosts l hs) = countPrimaries l := by
  intro hs
  induction hs with
  | nil => intro l; rfl
  | cons h0 rest ih =>
      intro l
      simp only [addNewHosts]
      by_cases hc : containsAddr l h0
      · simp only [hc, if_true]
        exact ih l
      · rw [if_neg hc, ih]
        simp [countPrimaries, List.countP_append, isPrimaryEntry, unknownDesc,
          List.countP_cons]

theorem countPrimaries_setServer_le : ∀ {l : List (String × ServerDescription)}
    {a : String} {d : ServerDescription}, isPrimaryEntry (a, d) = false →
    countPrimaries (setServer l a d) ≤ countPrimaries l := by
  intro l
  induction l with
  | nil =>
      intro a d hnp
      simp [setServer, countPrimaries, List.countP_cons, hnp]
  | cons kv rest ih =>
      intro a d hnp
      obtain ⟨k, v⟩ := kv
      by_cases hk : k = a
      · rw [setServer_cons_eq hk]
        simp only [countPrimaries, List.countP_cons, hnp]
        cases hkv : isPrimaryEntry (k, v) <;> simp
      · rw [setServer_cons_ne hk]
        simp only [countPrimaries, List.countP_cons]
        have := ih (a := a) (d := d) hnp
        simp only [countPrimaries] at this
        omega

theorem countPrimaries_le_one_of_key : ∀ {l : List (String × ServerDescription)}
    {a : String}, (l.map Prod.fst).Nodup →
    (∀ p ∈ l, isPrimaryEntry p = true → p.1 = a) → countPrimaries l ≤ 1 := by
  intro l
  induction l with
  | nil => intro a _ _; simp [countPrimaries]
  | cons q rest ih =>
      intro a hn hall
      simp only [List.map_cons, List.nodup_cons] at hn
      obtain ⟨hq0, hn0⟩ := hn
      simp only [countPrimaries, List.countP_cons]
      cases hq : isPrimaryEntry q with
      | false =>
          have := ih hn0 (fun p hp => hall p (List.mem_cons_of_mem _ hp))
          simp only [countPrimaries] at this
          simp [hq]
          omega
      | true =>
          have hqa : q.1 = a := hall q (List.mem_cons_self _ _) hq
          have hzero : rest.countP isPrimaryEntry = 0 := by
            rw [List.countP_eq_zero]
            intro p hp hprim
            apply hq0
            have hqp : q.1 = p.1 :=
              hqa.trans (hall p (List.mem_cons_of_mem _ hp) hprim).symm
            rw [hqp]
            exact List.mem_map_of_mem Prod.fst hp
          simp [hq, hzero]

theorem demote_prim_of_prim (addr : String) (eid : Nat)
    (p : String × ServerDescription)
    (hq : isPrimaryEntry (demoteEntry addr eid p) = true) :
    isPrimaryEntry p = true := by
  rcases demoteEntry_cases addr eid p with h | h
  · rwa [h] at hq
  · rw [h] at hq
    simp [isPrimaryEntry, unknownDesc] at hq

theorem demote_prim_key (addr : String) (eid : Nat)
    (p : String × ServerDescription)
    (hle : p.2.electionId ≤ eid)
    (hq : isPrimaryEntry (demoteEntry addr eid p) = true) :
    (demoteEntry addr eid p).1 = addr := by
  rw [demoteEntry_fst]
  by_cases hpa : p.1 = addr
  · exact hpa
  · exfalso
    have hq' : isPrimaryEntry p = true := demote_prim_of_prim addr eid p hq
    have hde : demoteEntry addr eid p = (p.1, unknownDesc p.1) := by
      simp [demoteEntry, hpa, hq', hle]
    rw [hde] at hq
    simp [isPrimaryEntry, unknownDesc] at hq

theorem inv_parts_setServer_nonprim
    {l : List (String × ServerDescription)} {m : Nat} {a : String}
    {d : ServerDescription}
    (hnp : isPrimaryEntry (a, d) = false)
    (hn : (l.map Prod.fst).Nodup)
    (hb : ∀ p ∈ l, isPrimaryEntry p = true → p.2.electionId ≤ m)
    (hc : countPrimaries l ≤ 1) :
    ((setServer l a d).map Prod.fst).Nodup ∧
    (∀ p ∈ setServer l a d, isPrimaryEntry p = true → p.2.electionId ≤ m) ∧
    countPrimaries (setServer l a d) ≤ 1 := by
  refine ⟨nodup_keys_setServer hn, ?_, le_trans (countPrimaries_setServer_le hnp) hc⟩
  intro p hp hprim
  rcases mem_setServer hp with h | h
  · exact hb p h hprim
  · subst h
    simp [hnp] at hprim

theorem topoInv_markUnknown (T : Topology) (addr : String) (h : TopoInv T) :
    TopoInv (markUnknown T addr) := by
  obtain ⟨hn, hb, hc⟩ := h
  have hparts := inv_parts_setServer_nonprim (l := T.servers) (m := T.maxElectionId)
    (a := addr) (d := unknownDesc addr) rfl hn hb hc
  simp only [TopoInv, markUnknown]
  exact ⟨hparts.1, hparts.2.1, hparts.2.2⟩

theorem topoInv_applyUpdate (T : Topology) (addr : String) (r : HealthResult)
    (h : TopoInv T) : TopoInv (applyUpdate T addr r) := by
  obtain ⟨hn, hb, hc⟩ := h
  have hset : ∀ (sd : ServerDescription), isPrimaryEntry (addr, sd) = false →
      TopoInv { T with servers := setServer T.servers addr sd } := by
    intro sd hnp
    have hparts := inv_parts_setServer_nonprim (l := T.servers)
      (m := T.maxElectionId) hnp hn hb hc
    exact ⟨hparts.1, hparts.2.1, hparts.2.2⟩
  cases r with
  | err => exact topoInv_markUnknown T addr ⟨hn, hb, hc⟩
  | ok sd =>
      simp only [applyUpdate]
      split
      · exact topoInv_markUnknown T addr ⟨hn, hb, hc⟩
      · rename_i heq
        have hnp : isPrimaryEntry (addr, sd) = false := by
          simp [isPrimaryEntry, heq]
        split
        · exact hset sd hnp
        · exact hset sd hnp
      · rename_i heq
        have hnp : isPrimaryEntry (addr, sd) = false := by
          simp [isPrimaryEntry, heq]
        exact hset sd hnp
      · rename_i heq
        by_cases hguard : sd.electionId < T.maxElectionId
        · rw [if_pos hguard]
          exact ⟨hn, hb, hc⟩
        · rw [if_neg hguard]
          have hmax : T.maxElectionId ≤ sd.electionId := Nat.le_of_not_lt hguard
          have hn0 := nodup_keys_filter
            (fun p => p.1 ∈ sd.hosts || p.1 == addr) hn
          have hn1 : (((T.servers.filter
              (fun p => p.1 ∈ sd.hosts || p.1 == addr)).map
                (demoteEntry addr sd.electionId)).map Prod.fst).Nodup := by
            rw [keys_map_demote]; exact hn0
          have hn2 := nodup_keys_setServer (a := addr) (d := sd) hn1
          refine ⟨nodup_keys_addNewHosts sd.hosts _ hn2, ?_, ?_⟩
          · intro p hp hprim
            rcases mem_addNewHosts sd.hosts hp with hp2 | ⟨h0, hh, rfl⟩
            · rcases mem_setServer hp2 with hp1 | hpe
              · obtain ⟨q, hq0, rfl⟩ := List.mem_map.mp hp1
                have hq' := demote_prim_of_prim addr sd.electionId q hprim
                have hqT : q ∈ T.servers := List.mem_of_mem_filter hq0
                rcases demoteEntry_cases addr sd.electionId q with hde | hde
                · rw [hde]
                  exact le_trans (hb q hqT hq') (le_max_left _ _)
                · rw [hde] at hprim
                  simp [isPrimaryEntry, unknownDesc] at hprim
              · subst hpe
                exact le_max_right _ _
            · simp [isPrimaryEntry, unknownDesc] at hprim
          · rw [countPrimaries_addNewHosts]
            apply countPrimaries_le_one_of_key (a := addr) hn2
            intro p hp hprim
            rcases mem_setServer hp with hp1 | hpe
            · obtain ⟨q, hq0, rfl⟩ := List.mem_map.mp hp1
              have hq' := demote_prim_of_prim addr sd.electionId q hprim
              have hqT : q ∈ T.servers := List.mem_of_mem_filter hq0
              exact demote_prim_key addr sd.electionId q
                (le_trans (hb q hqT hq') hmax) hprim
            · subst hpe
              rfl
      · rename_i heq
        have hnp : isPrimaryEntry (addr, sd) = false := by
          simp [isPrimaryEntry, heq]
        exact hset sd hnp
      · rename_i heq h2 h3 h4 h5 h6
        have hnp : isPrimaryEntry (addr, sd) = false := by
          cases hs : sd.stype
          all_goals simp_all [isPrimaryEntry]
        exact hset sd hnp


theorem topo_reachable_inv : ∀ (updates : List (String × HealthResult)),
    TopoInv (runTopology updates) := by
  have hgen : ∀ (updates : List (String × HealthResult)) (T : Topology),
      TopoInv T → TopoInv (updates.foldl (fun T u => applyUpdate T u.1 u.2) T) := by
    intro updates
    induction updates with
    | nil => intro T h; exact h
    | cons u rest ih =>
        intro T h
        exact ih _ (topoInv_applyUpdate T u.1 u.2 h)
  intro updates
  exact hgen updates initTopology ⟨List.nodup_nil, by simp [initTopology], by
    simp [initTopology, countPrimaries]⟩

/-- C2: every Topology Description reachable from the initial state by any
sequence of `apply_update` calls has at most one member with server type
RSPrimary — a new primary is only accepted after every other member
claiming RSPrimary with a lower/equal election context has been demoted to
Unknown, and stale primaries are rejected outright (§3, §4.1, §8). -/
theorem at_most_one_primary (updates : List (String × HealthResult)) :
    countPrimaries (runTopology updates).servers ≤ 1 :=
  (topo_reachable_inv updates).2.2

/-! ## C6: apply_update is idempotent in its health-result argument -/

theorem option_orElse_idem (o s : Option String) :
    (o.orElse fun _ => s).orElse (fun _ => s) = o.orElse fun _ => s := by
  cases o <;> cases s <;> rfl

theorem markUnknown_idem (T : Topology) (addr : String) :
    markUnknown (markUnknown T addr) addr = markUnknown T addr := by
  simp only [markUnknown, setServer_setServer]
  by_cases h : (decide (T.ttype = TopologyType.ReplicaSetWithPrimary) &&
      !hasPrimary (setServer T.servers addr (unknownDesc addr))) = true
  · simp [h]
  · simp [h]

theorem primary_servers_idem (l : List (String × ServerDescription))
    (addr : String) (sd : ServerDescription) :
    addNewHosts (setServer (((addNewHosts (setServer ((l.filter
        (fun p => p.1 ∈ sd.hosts || p.1 == addr)).map
          (demoteEntry addr sd.electionId)) addr sd) sd.hosts).filter
        (fun p => p.1 ∈ sd.hosts || p.1 == addr)).map
          (demoteEntry addr sd.electionId)) addr sd) sd.hosts =
    addNewHosts (setServer ((l.filter
        (fun p => p.1 ∈ sd.hosts || p.1 == addr)).map
          (demoteEntry addr sd.electionId)) addr sd) sd.hosts := by
  set P : String × ServerDescription → Bool :=
    fun p => p.1 ∈ sd.hosts || p.1 == addr with hP
  set de : String × ServerDescription → String × ServerDescription :=
    demoteEntry addr sd.electionId with hde
  set S1 : List (String × ServerDescription) :=
    addNewHosts (setServer ((l.filter P).map de) addr sd) sd.hosts with hS1
  have hfilter : S1.filter P = S1 := by
    rw [List.filter_eq_self]
    intro p hp
    rcases mem_addNewHosts sd.hosts hp with hp2 | ⟨h0, hh, rfl⟩
    · rcases mem_setServer hp2 with hp1 | hpe
      · obtain ⟨q, hq0, rfl⟩ := List.mem_map.mp hp1
        have hq := List.of_mem_filter hq0
        have hkey : P (de q) = P q := by
          simp only [hP, hde]
          rw [demoteEntry_fst]
        rw [hkey]
        exact hq
      · subst hpe
        simp [hP]
    · simp [hP, hh]
  have hmap : S1.map de = S1 := by
    have hall : ∀ p ∈ S1, de p = p := by
      intro p hp
      rcases mem_addNewHosts sd.hosts hp with hp2 | ⟨h0, hh, rfl⟩
      · rcases mem_setServer hp2 with hp1 | hpe
        · obtain ⟨q, hq0, rfl⟩ := List.mem_map.mp hp1
          exact demoteEntry_idem addr sd.electionId q
        · subst hpe
          simp [hde, demoteEntry]
      · simp [hde, demoteEntry, isPrimaryEntry, unknownDesc]
    exact (List.map_congr_left hall).trans (List.map_id _)
  have hlook : lookupServer S1 addr = some sd := by
    rw [hS1]
    exact lookupServer_addNewHosts_of_some sd.hosts
      (lookupServer_setServer_self _ _ _)
  have hsetS : setServer S1 addr sd = S1 := setServer_eq_of_lookup hlook
  have haddS : addNewHosts S1 sd.hosts = S1 := by
    apply addNewHosts_eq_self
    intro h hh
    rw [hS1]
    exact containsAddr_addNewHosts_of_mem sd.hosts _ hh
  rw [hfilter, hmap, hsetS, haddS]

/-- C6: applying the same monitor result twice via `apply_update` yields
the same Topology Description as applying it once (§8): `apply_update` is
idempotent in its health-result argument, for every topology, address and
result. -/
theorem apply_update_idempotent (T : Topology) (addr : String)
    (r : HealthResult) :
    applyUpdate (applyUpdate T addr r) addr r = applyUpdate T addr r := by
  cases r with
  | err => exact markUnknown_idem T addr
  | ok sd =>
      simp only [applyUpdate]
      split
      · exact markUnknown_idem T addr
      · by_cases hT : T.ttype = .Unknown <;>
          simp [hT, setServer_setServer]
      · simp [setServer_setServer]
      · by_cases hguard : sd.electionId < T.maxElectionId
        · rw [if_pos hguard, if_pos hguard]
        · rw [if_neg hguard]
          have houter : ¬ sd.electionId < max T.maxElectionId sd.electionId := by
            omega
          dsimp only
          rw [if_neg houter]
          simp only [Topology.mk.injEq]
          refine ⟨trivial, primary_servers_idem T.servers addr sd,
            option_orElse_idem _ _, by omega⟩
      · simp [setServer_setServer]
      · cases hT : T.ttype <;>
          by_cases hsp : hasPrimary (setServer T.servers addr sd) <;>
            simp [hT, hsp, rsType, setServer_setServer, option_orElse_idem]

end MongoDriver

